import Mathlib

/-! Verification of the interaction / hit-testing engine of the
NashFlowComputation plot canvas (`source/plotCanvasClass.py`,
`source/utilitiesClass.py`).

Modelling conventions.
* Coordinates and all numeric quantities are rationals (`ℚ`); the Python
  source works with floats but the specified behaviour is real arithmetic.
* The source compares Euclidean distances `sqrt s` against nonnegative
  thresholds `r`.  Since `sqrt` is monotone and `sqrt s ≤ r ↔ s ≤ r ^ 2`
  for `r ≥ 0`, the embedding carries the *square* of every distance and
  compares it with the squared threshold; this keeps every definition
  computable and every comparison decidable while deciding exactly the
  same predicates as the source.
* Rendering calls (`update_nodes`, `update_edges`, `draw_idle`,
  `interface.*`) only touch matplotlib/Qt objects, never the modelled
  state, so they are omitted.
* Fallible code (Python `TypeError` / `KeyError`) is modelled with
  `Except Unit`.
-/

namespace NashFlow

/-- Constant `SIMILARITY_DIST` from `plotCanvasClass.py`: maximal distance at which a
click is recognized as a click on a node/edge. -/
def SIMILARITY_DIST : ℚ := 9

/-- Squared Euclidean norm of a rational vector. -/
def sqNorm (v : ℚ × ℚ) : ℚ := v.1 ^ 2 + v.2 ^ 2

/-- Squared Euclidean distance between two points; stands for the square of
`sqrt((x1-x2)**2 + (y1-y2)**2)` computed by the source. -/
def sqDist (p q : ℚ × ℚ) : ℚ := (p.1 - q.1) ^ 2 + (p.2 - q.2) ^ 2

/-- Dot product of two rational vectors. -/
def dot (v w : ℚ × ℚ) : ℚ := v.1 * w.1 + v.2 * w.2

/-- Python `int()` applied to a real value: truncation toward zero. -/
def pyInt (q : ℚ) : ℤ := if q < 0 then ⌈q⌉ else ⌊q⌋

/-- A Python float attribute value that is either a finite rational or
`float('inf')`. -/
inductive Val where
  | fin (q : ℚ)
  | inf
deriving DecidableEq, Repr

/-- The nested `TFC` mode-flags dictionary stored on every edge.  Python
stores `None` / booleans; a missing `inflowBound` key (general kind) is
`none`. -/
structure TFC where
  resettingEnabled : Option Bool
  active : Option Bool
  inflowBound : Option ℚ
deriving DecidableEq, Repr

/-- Attributes of one edge, as set by `add_edge` in `on_release`. -/
structure EdgeAttrs where
  transitTime : Val
  inCapacity : Val
  outCapacity : Val
  storage : Val
  TFC : TFC
deriving DecidableEq, Repr

/-- Attributes of one node (`'position'` and `'label'`). -/
structure NodeAttrs where
  position : ℚ × ℚ
  label : String
deriving DecidableEq, Repr

/-- The networkx graph: nodes and edges in insertion order (Python dicts
preserve insertion order, which is the iteration order used by the
hit-testing loops), plus the graph-level counter `graph['lastID']`. -/
structure Graph where
  nodes : List (String × NodeAttrs)
  edges : List ((String × String) × EdgeAttrs)
  lastID : Nat
deriving DecidableEq, Repr

/-- Whether node `v` is present in the graph. -/
def hasNode (g : Graph) (v : String) : Bool :=
  g.nodes.any (fun p => p.1 = v)

/-- Test `network.has_edge(v, w)`: whether the exact ordered pair is present. -/
def has_edge (g : Graph) (v w : String) : Bool :=
  g.edges.any (fun p => p.1 = (v, w))

/-- Position of node `v`.  All call sites read positions of nodes that are
in the graph (Python would raise `KeyError` otherwise); the default is
never reached from the modelled handlers. -/
def nodePosition (g : Graph) (v : String) : ℚ × ℚ :=
  match g.nodes.find? (fun p => p.1 = v) with
  | some p => p.2.position
  | none => (0, 0)

/-- The three lines `add_node(nodeID)`, `nodes[nodeID]['position'] = …`,
`nodes[nodeID]['label'] = …` of `check_node_clicked`, combined: insert the
node if absent (networkx appends it), then write both attributes. -/
def insertNode (g : Graph) (v : String) (a : NodeAttrs) : Graph :=
  if hasNode g v then
    { g with nodes := g.nodes.map (fun p => if p.1 = v then (v, a) else p) }
  else
    { g with nodes := g.nodes ++ [(v, a)] }

/-- Operation `network.add_edge(v, w, …)`: overwrite the attributes when the ordered
pair exists, append it otherwise.  (At its only call site the pair is
guarded by `not has_edge`, and both endpoints are existing nodes.) -/
def add_edge (g : Graph) (v w : String) (a : EdgeAttrs) : Graph :=
  if has_edge g v w then
    { g with edges := g.edges.map (fun p => if p.1 = (v, w) then ((v, w), a) else p) }
  else
    { g with edges := g.edges ++ [((v, w), a)] }

/-- Assignment `network.nodes[v]['position'] = pos` (used by `on_motion` while a node
is dragged). -/
def setNodePosition (g : Graph) (v : String) (pos : ℚ × ℚ) : Graph :=
  { g with nodes := g.nodes.map (fun p => if p.1 = v then (v, { p.2 with position := pos }) else p) }

/-- Function `compute_dist_projection_on_segment(clickpos, startpos, endpos)`.
The source returns `-1` when the scalar projection coefficient `xScalar`
of `mu = clickpos - startpos` onto `b = endpos - startpos` falls outside
`[0, 1]`, and otherwise the Euclidean norm `‖mu - xScalar • b‖`.  Per the
squared-distance convention of this file, the non-sentinel branch returns
the square of that norm; `-1` is kept verbatim as the sentinel (it is
negative, hence distinguishable from every squared distance). -/
def compute_dist_projection_on_segment (clickpos startpos endpos : ℚ × ℚ) : ℚ :=
  let mu : ℚ × ℚ := (clickpos.1 - startpos.1, clickpos.2 - startpos.2)
  let b : ℚ × ℚ := (endpos.1 - startpos.1, endpos.2 - startpos.2)
  let xScalar : ℚ := dot mu b / sqNorm b
  let x : ℚ × ℚ := (xScalar * b.1, xScalar * b.2)
  if xScalar < 0 ∨ 1 < xScalar then -1
  else sqNorm (mu.1 - x.1, mu.2 - x.2)

/-- Loop body of `check_edge_clicked`: walk the edges in iteration order and
return the first one whose projection distance satisfies
`0 <= dist <= SIMILARITY_DIST` (squared-threshold form). -/
def edgeLoop (g : Graph) (clickpos : ℚ × ℚ) :
    List ((String × String) × EdgeAttrs) → Option (String × String)
  | [] => none
  | e :: rest =>
    let startpos := nodePosition g e.1.1
    let endpos := nodePosition g e.1.2
    let dist := compute_dist_projection_on_segment clickpos startpos endpos
    if 0 ≤ dist ∧ dist ≤ SIMILARITY_DIST ^ 2 then some e.1
    else edgeLoop g clickpos rest

/-- Function `check_edge_clicked(clickpos)`: first edge close enough to the click,
`none` when no edge qualifies.  Pure: the graph is not touched. -/
def check_edge_clicked (g : Graph) (clickpos : ℚ × ℚ) : Option (String × String) :=
  edgeLoop g clickpos g.edges

/-- The running minimum `minDist` of `check_node_clicked`; `none` encodes
the initial `float('inf')`. -/
def minUpdate (d : ℚ) : Option ℚ → Option ℚ
  | none => some d
  | some m => if d ≤ m then some d else some m

/-- The loop of `check_node_clicked`: scan node positions in iteration
order; stop at the first node whose (squared) distance to the click is
within the (squared) threshold, otherwise accumulate the minimum observed
(squared) distance. -/
def nodeHitLoop (clickpos : ℚ × ℚ) :
    List (String × NodeAttrs) → Option ℚ → Option String × Option ℚ
  | [], minDist => (none, minDist)
  | p :: rest, minDist =>
    let d := sqDist clickpos p.2.position
    if d ≤ SIMILARITY_DIST ^ 2 then (some p.1, minDist)
    else nodeHitLoop clickpos rest (minUpdate d minDist)

/-- Guard `minDist > 2 * SIMILARITY_DIST` in squared form, with `none` playing
the role of the initial `float('inf')`. -/
def minDistFar : Option ℚ → Bool
  | none => true
  | some m => (2 * SIMILARITY_DIST) ^ 2 < m

/-- Function `check_node_clicked(clickpos, edgePossible)`: returns the clicked node
(or the freshly created node id) together with the possibly-extended
graph.  A node is created exactly when no node was hit, every observed
node is farther than twice the threshold, and no edge was hit. -/
def check_node_clicked (g : Graph) (clickpos : ℚ × ℚ) (edgePossible : Bool) :
    Option String × Graph :=
  let scan := nodeHitLoop clickpos g.nodes none
  let clickedNode := scan.1
  let minDist := scan.2
  if clickedNode.isNone && minDistFar minDist && !edgePossible then
    let nodeID := toString g.lastID
    let g' := insertNode g nodeID
      { position := ((pyInt clickpos.1 : ℚ), (pyInt clickpos.2 : ℚ)), label := nodeID }
    (some nodeID, { g' with lastID := g.lastID + 1 })
  else
    (clickedNode, g)

/-- The constructor argument `type` of `PlotCanvas`: `'general'` or
`'spillback'`. -/
inductive GraphType where
  | general
  | spillback
deriving DecidableEq, Repr

/-- The modelled mutable state of a `PlotCanvas` instance: the graph, the
construction-time configuration, the view state scaled by `zoom`, the
focus fields, and the gesture bookkeeping fields. -/
structure Canvas where
  network : Graph
  onlyNTF : Bool
  type : GraphType
  Xlim : ℚ × ℚ
  Ylim : ℚ × ℚ
  edgeWidthSize : ℚ
  nodeLabelFontSize : ℚ
  edgeLabelFontSize : ℚ
  focusNode : Option String
  focusEdge : Option (String × String)
  selectedNode : Option String
  mouseWheelPressedPosition : Option (ℚ × ℚ)
  mouseWheelPressed : Bool
  mouseRightPressed : Bool
  mouseWheelPosition : Option (ℚ × ℚ)
deriving DecidableEq, Repr

/-- Field `event.button` of a matplotlib mouse event: 1 (left), 2 (wheel),
3 (right). -/
inductive Button where
  | left
  | wheel
  | right
deriving DecidableEq, Repr

/-- A matplotlib mouse event; `xdata`/`ydata` are `None` when the pointer
is outside the drawable area. -/
structure MouseEvent where
  xdata : Option ℚ
  ydata : Option ℚ
  button : Button
deriving DecidableEq, Repr

/-- Field `event.button` of a scroll event: `'up'` or `'down'`. -/
inductive ScrollDir where
  | up
  | down
deriving DecidableEq, Repr

/-- A matplotlib scroll event. -/
structure ScrollEvent where
  xdata : Option ℚ
  ydata : Option ℚ
  button : ScrollDir
deriving DecidableEq, Repr

/-- The default edge attributes passed to `network.add_edge` in
`on_release`; the `TFC` flags depend on `onlyNTF` and the `inflowBound`
key exists only for the `'spillback'` kind. -/
def defaultEdgeAttrs (type : GraphType) (onlyNTF : Bool) : EdgeAttrs :=
  let resettingEnabledBool : Option Bool := if onlyNTF then some false else none
  let activeEnabledBool : Option Bool := if onlyNTF then some true else none
  match type with
  | .general =>
    { transitTime := .fin 1, inCapacity := .inf, outCapacity := .fin 1, storage := .inf,
      TFC := { resettingEnabled := resettingEnabledBool, active := activeEnabledBool,
               inflowBound := none } }
  | .spillback =>
    { transitTime := .fin 1, inCapacity := .inf, outCapacity := .fin 1, storage := .inf,
      TFC := { resettingEnabled := resettingEnabledBool, active := activeEnabledBool,
               inflowBound := some 1 } }

/-- Handler `on_click` (button press).  Rendering and interface
notifications are omitted; everything that touches the modelled state is
kept.  (The source's `newNodeCreated` flag feeds only interface
notifications here, so it does not appear.) -/
def on_click (c : Canvas) (event : MouseEvent) : Canvas :=
  match event.xdata, event.ydata with
  | some xAbsolute, some yAbsolute =>
    match event.button with
    | .left =>
      let clickedEdge := check_edge_clicked c.network (xAbsolute, yAbsolute)
      let scan := check_node_clicked c.network (xAbsolute, yAbsolute) clickedEdge.isSome
      let clickedNode := scan.1
      let c := { c with network := scan.2 }
      if clickedEdge.isSome && clickedNode.isNone then
        { c with focusEdge := clickedEdge, focusNode := none }
      else
        match clickedNode with
        | some n => { c with focusNode := some n, focusEdge := none, selectedNode := some n }
        | none => c
    | .wheel =>
      { c with mouseWheelPressed := true,
               mouseWheelPressedPosition := some (xAbsolute, yAbsolute) }
    | .right =>
      let scan := check_node_clicked c.network (xAbsolute, yAbsolute) true
      let c := { c with network := scan.2 }
      match scan.1 with
      | some n =>
        { c with selectedNode := some n, mouseRightPressed := true,
                 focusNode := some n, focusEdge := none }
      | none => c
  | _, _ => c

/-- Handler `on_release` (button release).  In the `newNodeCreated` branch
the source sets `focusNode` to the new node, notifies the interface, and
resets it to `None`; the net effect on the state is `focusNode := none`. -/
def on_release (c : Canvas) (event : MouseEvent) : Canvas :=
  match event.xdata, event.ydata with
  | some xAbsolute, some yAbsolute =>
    match event.button with
    | .left =>
      let lastID := c.network.lastID
      let clickedEdge := check_edge_clicked c.network (xAbsolute, yAbsolute)
      let scan := check_node_clicked c.network (xAbsolute, yAbsolute) clickedEdge.isSome
      let clickedNode := scan.1
      let newNodeCreated := lastID < scan.2.lastID
      let c := { c with network := scan.2 }
      let c :=
        match clickedNode with
        | some n =>
          let c := if newNodeCreated then { c with focusNode := none } else c
          match c.selectedNode with
          | some sel =>
            if sel ≠ n then
              if ¬ has_edge c.network sel n then
                { c with network := add_edge c.network sel n (defaultEdgeAttrs c.type c.onlyNTF),
                         focusEdge := some (sel, n), focusNode := none }
              else c
            else c
          | none => c
        | none => c
      { c with selectedNode := none }
    | .wheel =>
      { c with mouseWheelPressed := false, mouseWheelPressedPosition := none }
    | .right =>
      { c with mouseRightPressed := false, selectedNode := none }
  | _, _ => c

/-- Function `move()`: shift the visible bounds by the drag delta.  Both positions
are set at the only call site (guarded in `on_motion`). -/
def move (c : Canvas) : Canvas :=
  match c.mouseWheelPosition, c.mouseWheelPressedPosition with
  | some p, some q =>
    let dx := p.1 - q.1
    let dy := p.2 - q.2
    { c with Xlim := (c.Xlim.1 - dx, c.Xlim.2 - dx),
             Ylim := (c.Ylim.1 - dy, c.Ylim.2 - dy) }
  | _, _ => c

/-- Handler `on_motion` (pointer move): pan while the wheel is pressed,
drag the selected node while the right button is pressed. -/
def on_motion (c : Canvas) (event : MouseEvent) : Canvas :=
  match event.xdata, event.ydata with
  | some xAbsolute, some yAbsolute =>
    if c.mouseWheelPressed && c.mouseWheelPressedPosition.isSome then
      move { c with mouseWheelPosition := some (xAbsolute, yAbsolute) }
    else if c.mouseRightPressed && c.selectedNode.isSome then
      match c.selectedNode with
      | some v => { c with network := setNodePosition c.network v (xAbsolute, yAbsolute) }
      | none => c
    else c
  | _, _ => c

/-- Function `zoom(factor)`: bounds are multiplied by `1/factor`, the width and the
two font sizes by `factor`; `factor = None` leaves everything unchanged. -/
def zoom (c : Canvas) (factor : Option ℚ) : Canvas :=
  match factor with
  | some f =>
    { c with Xlim := (f⁻¹ * c.Xlim.1, f⁻¹ * c.Xlim.2),
             Ylim := (f⁻¹ * c.Ylim.1, f⁻¹ * c.Ylim.2),
             edgeWidthSize := f * c.edgeWidthSize,
             nodeLabelFontSize := f * c.nodeLabelFontSize,
             edgeLabelFontSize := f * c.edgeLabelFontSize }
  | none => c

/-- Handler `on_scroll` (wheel): zoom in by `1/0.9` on `'up'`, out by
`0.9` on `'down'`. -/
def on_scroll (c : Canvas) (event : ScrollEvent) : Canvas :=
  match event.xdata, event.ydata with
  | some _, some _ =>
    let sFactor : ℚ := 1 - 1 / 10
    let bFactor : ℚ := sFactor⁻¹
    let factor := if event.button = .up then bFactor else sFactor
    zoom c (some factor)
  | _, _ => c

/-- A displayed label entry: either a Python `int` (produced by the
shortening loop of `get_edge_labels`) or the original float value. -/
inductive Lbl where
  | int (n : ℤ)
  | val (v : Val)
deriving DecidableEq, Repr

/-- One pass of the shortening loop of `get_edge_labels`:
`int(val) if (val != float('inf') and int(val) == val) else val`.
A finite rational equals its truncation exactly when its denominator is 1. -/
def shorten (v : Val) : Lbl :=
  match v with
  | .inf => .val .inf
  | .fin q => if q.den = 1 then .int q.num else .val (.fin q)

/-- Edge attribute names used by `get_edge_labels`. -/
inductive EdgeAttrName where
  | inCapacity
  | outCapacity
  | storage
  | transitTime
deriving DecidableEq, Repr

/-- Read one named attribute from an edge's attribute record (the
`nx.get_edge_attributes` lookup for a single edge). -/
def getAttr (a : EdgeAttrs) : EdgeAttrName → Val
  | .inCapacity => a.inCapacity
  | .outCapacity => a.outCapacity
  | .storage => a.storage
  | .transitTime => a.transitTime

/-- Function `Utilities.join_intersect_dicts(dict1, dict2)` from
`utilitiesClass.py`: its signature takes exactly two dictionaries and
pairs the values of the keys of `dict1` that also occur in `dict2`.
`get_edge_labels` calls it as `join_intersect_dicts(*attributeList)`, so a
call with any other number of dictionaries raises `TypeError`, modelled by
`Except.error`. -/
def join_intersect_dicts (dicts : List (List ((String × String) × Val))) :
    Except Unit (List ((String × String) × (Val × Val))) :=
  match dicts with
  | [dict1, dict2] =>
    .ok (dict1.filterMap (fun p =>
      match dict2.find? (fun q => q.1 = p.1) with
      | some q => some (p.1, (p.2, q.2))
      | none => none))
  | _ => .error ()

/-- The manually-built `inflowBound` dictionary of `get_edge_labels`
(`d[e] = network[v][w]['TFC']['inflowBound']`); a missing key would be a
Python `KeyError`. -/
def inflowDict (g : Graph) : Except Unit (List ((String × String) × Val)) :=
  g.edges.mapM (fun p =>
    match p.2.TFC.inflowBound with
    | some q => Except.ok (p.1, Val.fin q)
    | none => Except.error ())

/-- Function `get_edge_labels()`: select the kind-specific attribute list, collect
one dictionary per attribute over all edges, join them with
`join_intersect_dicts`, and shorten integral finite values.  In every
configuration that reaches the shortening loop the joined values are
pairs, so the loop maps `shorten` over both components. -/
def get_edge_labels (type : GraphType) (onlyNTF : Bool) (g : Graph) :
    Except Unit (List ((String × String) × (Lbl × Lbl))) := do
  let attributes : List EdgeAttrName :=
    match type, onlyNTF with
    | .general, false => [.outCapacity, .transitTime]
    | .general, true => [.outCapacity]
    | .spillback, false => [.inCapacity, .outCapacity, .storage, .transitTime]
    | .spillback, true => [.outCapacity]
  let attributeList := attributes.map (fun a => g.edges.map (fun p => (p.1, getAttr p.2 a)))
  let attributeList ←
    if type = .spillback ∧ onlyNTF = true then do
      let d ← inflowDict g
      pure (attributeList ++ [d])
    else
      pure attributeList
  let labelDict ← join_intersect_dicts attributeList
  pure (labelDict.map (fun p => (p.1, (shorten p.2.1, shorten p.2.2))))

/-! Sample states used by the concrete witnesses. -/

/-- The §8 scenario graph: nodes `s`, `t` at `(-50, 0)` and `(50, 0)`,
no edges. -/
def sampleGraphST : Graph :=
  { nodes := [("s", { position := (-50, 0), label := "s" }),
              ("t", { position := (50, 0), label := "t" })],
    edges := [],
    lastID := 2 }

/-- A canvas over `sampleGraphST` with the constructor defaults
(`stretchFactor = 1.57`, `onlyNTF = False`, `type = 'general'`). -/
def sampleCanvas : Canvas :=
  { network := sampleGraphST,
    onlyNTF := false,
    type := .general,
    Xlim := (-1884 / 10, 1884 / 10),
    Ylim := (-120, 120),
    edgeWidthSize := 4,
    nodeLabelFontSize := 9,
    edgeLabelFontSize := 7,
    focusNode := none,
    focusEdge := none,
    selectedNode := none,
    mouseWheelPressedPosition := none,
    mouseWheelPressed := false,
    mouseRightPressed := false,
    mouseWheelPosition := none }

/-- Graph with nodes `A`, `B` and the single edge `A → B`. -/
def sampleGraphAB : Graph :=
  { nodes := [("A", { position := (-50, 0), label := "A" }),
              ("B", { position := (50, 0), label := "B" })],
    edges := [(("A", "B"), defaultEdgeAttrs .general false)],
    lastID := 2 }

/-- A canvas over `sampleGraphAB` with a prescribed `selectedNode`, as it
is after a primary-button press on that node. -/
def sampleCanvasAB (selNode : Option String) : Canvas :=
  { sampleCanvas with network := sampleGraphAB, selectedNode := selNode }

/-! Theorems -/

/-- Claim C8: for every nonzero factor `f`, `zoom f` followed by
`zoom (1/f)` restores `Xlim`, `Ylim`, `edgeWidthSize`,
`nodeLabelFontSize` and `edgeLabelFontSize` (exactly, over `ℚ`, hence in
particular within floating tolerance). -/
theorem zoom_zoom_inv (c : Canvas) (f : ℚ) (hf : f ≠ 0) :
    (zoom (zoom c (some f)) (some (1 / f))).Xlim = c.Xlim ∧
    (zoom (zoom c (some f)) (some (1 / f))).Ylim = c.Ylim ∧
    (zoom (zoom c (some f)) (some (1 / f))).edgeWidthSize = c.edgeWidthSize ∧
    (zoom (zoom c (some f)) (some (1 / f))).nodeLabelFontSize = c.nodeLabelFontSize ∧
    (zoom (zoom c (some f)) (some (1 / f))).edgeLabelFontSize = c.edgeLabelFontSize := by
  have h2 : ∀ v : ℚ, f * (f⁻¹ * v) = v := fun v => mul_inv_cancel_left₀ hf v
  have h3 : ∀ v : ℚ, f⁻¹ * (f * v) = v := fun v => inv_mul_cancel_left₀ hf v
  refine ⟨?_, ?_, ?_, ?_, ?_⟩ <;>
    simp only [zoom, one_div, inv_inv, h2, h3, Prod.mk.eta]

/-- Witness for C8 at `f = 2` on the sample canvas. -/
theorem zoom_zoom_inv_witness :
    (zoom (zoom sampleCanvas (some 2)) (some (1 / 2))).Xlim = sampleCanvas.Xlim ∧
    (zoom (zoom sampleCanvas (some 2)) (some (1 / 2))).Ylim = sampleCanvas.Ylim ∧
    (zoom (zoom sampleCanvas (some 2)) (some (1 / 2))).edgeWidthSize = sampleCanvas.edgeWidthSize ∧
    (zoom (zoom sampleCanvas (some 2)) (some (1 / 2))).nodeLabelFontSize = sampleCanvas.nodeLabelFontSize ∧
    (zoom (zoom sampleCanvas (some 2)) (some (1 / 2))).edgeLabelFontSize = sampleCanvas.edgeLabelFontSize :=
  zoom_zoom_inv sampleCanvas 2 (by decide)

/-- The squared norm is nonnegative, hence distinguishable from the `-1`
sentinel. -/
theorem sqNorm_nonneg (v : ℚ × ℚ) : 0 ≤ sqNorm v := by
  unfold sqNorm
  positivity

/-- Claim C5: for every non-degenerate segment, the projection routine
returns the `-1` sentinel exactly when the scalar projection coefficient
`t` falls outside `[0, 1]`, and otherwise the (squared) Euclidean
distance from the click to its projection `startpos + t • b` on the
segment; concretely on the segment `(0,0)–(10,0)` the click `(15,0)`
yields the sentinel, `(5,1)` yields distance `1`, `(5,0)` yields
distance `0` (squared distances `1 ^ 2` and `0 ^ 2`). -/
theorem compute_dist_projection_on_segment_spec
    (clickpos startpos endpos : ℚ × ℚ) (_hne : startpos ≠ endpos) :
    (compute_dist_projection_on_segment clickpos startpos endpos = -1 ↔
      dot (clickpos.1 - startpos.1, clickpos.2 - startpos.2)
            (endpos.1 - startpos.1, endpos.2 - startpos.2) /
          sqNorm (endpos.1 - startpos.1, endpos.2 - startpos.2) < 0 ∨
      1 < dot (clickpos.1 - startpos.1, clickpos.2 - startpos.2)
            (endpos.1 - startpos.1, endpos.2 - startpos.2) /
          sqNorm (endpos.1 - startpos.1, endpos.2 - startpos.2)) ∧
    (∀ t : ℚ,
      t = dot (clickpos.1 - startpos.1, clickpos.2 - startpos.2)
            (endpos.1 - startpos.1, endpos.2 - startpos.2) /
          sqNorm (endpos.1 - startpos.1, endpos.2 - startpos.2) →
      ¬ (t < 0 ∨ 1 < t) →
      compute_dist_projection_on_segment clickpos startpos endpos =
        sqDist clickpos
          (startpos.1 + t * (endpos.1 - startpos.1),
           startpos.2 + t * (endpos.2 - startpos.2))) ∧
    compute_dist_projection_on_segment (15, 0) (0, 0) (10, 0) = -1 ∧
    compute_dist_projection_on_segment (5, 1) (0, 0) (10, 0) = 1 ^ 2 ∧
    compute_dist_projection_on_segment (5, 0) (0, 0) (10, 0) = 0 ^ 2 := by
  set t0 : ℚ := dot (clickpos.1 - startpos.1, clickpos.2 - startpos.2)
      (endpos.1 - startpos.1, endpos.2 - startpos.2) /
    sqNorm (endpos.1 - startpos.1, endpos.2 - startpos.2) with hT
  have hdef : compute_dist_projection_on_segment clickpos startpos endpos =
      if t0 < 0 ∨ 1 < t0 then (-1 : ℚ)
      else sqNorm (clickpos.1 - startpos.1 - t0 * (endpos.1 - startpos.1),
                   clickpos.2 - startpos.2 - t0 * (endpos.2 - startpos.2)) := rfl
  refine ⟨?_, ?_, ?_, ?_, ?_⟩
  · rw [hdef]
    by_cases hc : t0 < 0 ∨ 1 < t0
    · simp [hc]
    · rw [if_neg hc]
      constructor
      · intro habs
        have hge := sqNorm_nonneg (clickpos.1 - startpos.1 - t0 * (endpos.1 - startpos.1),
          clickpos.2 - startpos.2 - t0 * (endpos.2 - startpos.2))
        rw [habs] at hge
        norm_num at hge
      · intro hcc
        exact absurd hcc hc
  · intro t ht hcond
    rw [ht] at hcond ⊢
    rw [hdef, if_neg hcond]
    unfold sqNorm sqDist
    ring
  · simp only [compute_dist_projection_on_segment, dot, sqNorm]
    norm_num
  · simp only [compute_dist_projection_on_segment, dot, sqNorm]
    norm_num
  · simp only [compute_dist_projection_on_segment, dot, sqNorm]
    norm_num

/-- Witness for C5 on the non-degenerate segment `(0,0)–(10,0)` with
click `(5,1)`. -/
theorem compute_dist_projection_on_segment_spec_witness :
    ((0 : ℚ × ℚ) ≠ ((10 : ℚ), (0 : ℚ))) ∧
    compute_dist_projection_on_segment (5, 1) (0, 0) (10, 0) = 1 ^ 2 :=
  ⟨by decide,
   (compute_dist_projection_on_segment_spec (5, 1) (0, 0) (10, 0) (by decide)).2.2.2.1⟩

/-- Claim C4 (divergence witness): `join_intersect_dicts` accepts exactly
two dictionaries, so `get_edge_labels` raises `TypeError` for the
four-attribute `'spillback'` kind (and for the restricted `'general'`
kind, which passes a single dictionary), instead of returning the
kind-specific label tuples. -/
theorem get_edge_labels_arity_bug :
    (∀ g : Graph, get_edge_labels .spillback false g = .error ()) ∧
    (∀ g : Graph, get_edge_labels .general true g = .error ()) := by
  constructor <;> intro g <;> rfl

/-- The node-hit predicate of `check_node_clicked`:
`dist <= SIMILARITY_DIST` in squared form. -/
def nodeWithin (clickpos : ℚ × ℚ) (p : String × NodeAttrs) : Bool :=
  decide (sqDist clickpos p.2.position ≤ SIMILARITY_DIST ^ 2)

/-- The clicked node found by the scan loop is the first node within the
threshold in iteration order, whatever minimum was accumulated so far. -/
theorem nodeHitLoop_fst (clickpos : ℚ × ℚ) (l : List (String × NodeAttrs)) :
    ∀ minDist : Option ℚ,
      (nodeHitLoop clickpos l minDist).1 =
        (l.find? (nodeWithin clickpos)).map (fun p => p.1) := by
  induction l with
  | nil => intro m; rfl
  | cons p rest ih =>
    intro m
    by_cases h : sqDist clickpos p.2.position ≤ SIMILARITY_DIST ^ 2
    · rw [List.find?_cons_of_pos _ (by simpa [nodeWithin] using h)]
      simp [nodeHitLoop, h]
    · rw [List.find?_cons_of_neg _ (by simpa [nodeWithin] using h)]
      simp [nodeHitLoop, h, ih]

/-- If every node of `l` is farther than twice the threshold, the scan
finds no node and its accumulated minimum stays beyond twice the
threshold. -/
theorem nodeHitLoop_far (clickpos : ℚ × ℚ) (l : List (String × NodeAttrs))
    (hfar : ∀ p ∈ l, (2 * SIMILARITY_DIST) ^ 2 < sqDist clickpos p.2.position) :
    ∀ m : Option ℚ, minDistFar m = true →
      (nodeHitLoop clickpos l m).1 = none ∧
      minDistFar (nodeHitLoop clickpos l m).2 = true := by
  induction l with
  | nil => intro m hm; exact ⟨rfl, hm⟩
  | cons p rest ih =>
    intro m hm
    have hp := hfar p (List.mem_cons_self p rest)
    have hnot : ¬ (sqDist clickpos p.2.position ≤ SIMILARITY_DIST ^ 2) := by
      simp only [SIMILARITY_DIST] at hp ⊢
      norm_num at hp ⊢
      linarith
    have hup : minDistFar (minUpdate (sqDist clickpos p.2.position) m) = true := by
      cases m with
      | none =>
        simpa [minUpdate, minDistFar] using hp
      | some mv =>
        simp only [minDistFar, decide_eq_true_eq] at hm
        by_cases hle : sqDist clickpos p.2.position ≤ mv
        · simpa [minUpdate, hle, minDistFar] using hp
        · simpa [minUpdate, hle, minDistFar] using hm
    have := ih (fun q hq => hfar q (List.mem_cons_of_mem p hq))
      (minUpdate (sqDist clickpos p.2.position) m) hup
    simpa [nodeHitLoop, hnot] using this

/-- With `edgePossible = True` the creation branch of
`check_node_clicked` is unreachable, so the graph comes back unchanged. -/
theorem check_node_clicked_true_snd (g : Graph) (clickpos : ℚ × ℚ) :
    (check_node_clicked g clickpos true).2 = g := by
  simp [check_node_clicked]

/-- Claim C1: a primary click farther than twice the threshold from every
node, with no edge hit, creates exactly one node: the fresh id is the
stringified counter, the counter is incremented, the position is the
click truncated toward zero, the label equals the id, and the id is
returned.  (The freshness hypothesis `hfresh` is the graph-counter
allocation invariant: ids minted by the counter have not been used
before.)  The empty node list satisfies `hfar` vacuously. -/
theorem check_node_clicked_creates (g : Graph) (clickpos : ℚ × ℚ)
    (hfar : ∀ p ∈ g.nodes, (2 * SIMILARITY_DIST) ^ 2 < sqDist clickpos p.2.position)
    (hfresh : hasNode g (toString g.lastID) = false) :
    check_node_clicked g clickpos false =
      (some (toString g.lastID),
       { nodes := g.nodes ++ [(toString g.lastID,
           { position := ((pyInt clickpos.1 : ℚ), (pyInt clickpos.2 : ℚ)),
             label := toString g.lastID })],
         edges := g.edges,
         lastID := g.lastID + 1 }) := by
  have h := nodeHitLoop_far clickpos g.nodes hfar none rfl
  simp only [check_node_clicked, h.1, h.2, Option.isNone_none, Bool.not_false,
    Bool.and_true, Bool.true_and, if_true, insertNode, hfresh, Bool.false_eq_true,
    if_false]

/-- Witness for C1: clicking `(5/2, -7/2)` on the empty graph creates
node `"0"` at the truncated position `(2, -3)`. -/
theorem check_node_clicked_creates_witness :
    check_node_clicked { nodes := [], edges := [], lastID := 0 } (5 / 2, -7 / 2) false =
      (some "0",
       { nodes := [("0", { position := (2, -3), label := "0" })],
         edges := [],
         lastID := 1 }) := by
  have h := check_node_clicked_creates { nodes := [], edges := [], lastID := 0 } (5 / 2, -7 / 2)
    (by simp) (by with_unfolding_all decide)
  with_unfolding_all exact h

/-- Claim C7: a click within the threshold of at least one node returns
the first such node in node iteration order and leaves the graph
(nodes, attributes and counter) unchanged, for either value of
`edgePossible`. -/
theorem check_node_clicked_hit (g : Graph) (clickpos : ℚ × ℚ) (edgePossible : Bool)
    (hhit : ∃ p ∈ g.nodes, sqDist clickpos p.2.position ≤ SIMILARITY_DIST ^ 2) :
    ∃ p, g.nodes.find? (nodeWithin clickpos) = some p ∧
      p ∈ g.nodes ∧ nodeWithin clickpos p = true ∧
      check_node_clicked g clickpos edgePossible = (some p.1, g) := by
  obtain ⟨q, hq, hqd⟩ := hhit
  have hsome : (g.nodes.find? (nodeWithin clickpos)).isSome := by
    rw [List.find?_isSome]
    exact ⟨q, hq, by simpa [nodeWithin] using hqd⟩
  obtain ⟨p, hp⟩ := Option.isSome_iff_exists.mp hsome
  refine ⟨p, hp, List.mem_of_find?_eq_some hp, List.find?_some hp, ?_⟩
  have h1 := nodeHitLoop_fst clickpos g.nodes none
  simp [check_node_clicked, h1, hp]

/-- Witness for C7: on the sample graph a click at `(50, 1)` hits node
`"t"` and the graph is unchanged. -/
theorem check_node_clicked_hit_witness :
    ∃ p, sampleGraphST.nodes.find? (nodeWithin (50, 1)) = some p ∧
      p ∈ sampleGraphST.nodes ∧ nodeWithin (50, 1) p = true ∧
      check_node_clicked sampleGraphST (50, 1) false = (some p.1, sampleGraphST) :=
  check_node_clicked_hit sampleGraphST (50, 1) false
    ⟨("t", { position := (50, 0), label := "t" }),
     by simp [sampleGraphST], by with_unfolding_all decide⟩

/-- Claim C10: with `edgePossible = True` the node hit-test never mutates
the graph and returns only an existing node within the threshold (or
nothing); consequently a right-button press never changes the graph. -/
theorem check_node_clicked_edgePossible_frame (g : Graph) (clickpos : ℚ × ℚ) :
    (check_node_clicked g clickpos true).2 = g ∧
    (∀ n, (check_node_clicked g clickpos true).1 = some n →
      ∃ p ∈ g.nodes, p.1 = n ∧ sqDist clickpos p.2.position ≤ SIMILARITY_DIST ^ 2) ∧
    (∀ (c : Canvas) (x y : ℚ),
      (on_click c { xdata := some x, ydata := some y, button := .right }).network =
        c.network) ∧
    (∀ (c : Canvas) (x y : ℚ) (n : String),
      (check_node_clicked c.network (x, y) true).1 = some n →
      (on_click c { xdata := some x, ydata := some y, button := .right }).selectedNode =
          some n ∧
      (on_click c
          { xdata := some x, ydata := some y, button := .right }).mouseRightPressed = true) := by
  refine ⟨check_node_clicked_true_snd g clickpos, ?_, ?_, ?_⟩
  · intro n hn
    have h1 := nodeHitLoop_fst clickpos g.nodes none
    simp only [check_node_clicked, h1, Bool.not_true, Bool.and_false,
      Bool.false_eq_true, if_false] at hn
    obtain ⟨p, hp, hpn⟩ := Option.map_eq_some'.mp hn
    refine ⟨p, List.mem_of_find?_eq_some hp, hpn, ?_⟩
    have := List.find?_some hp
    simpa [nodeWithin] using this
  · intro c x y
    have h2 := check_node_clicked_true_snd c.network (x, y)
    simp only [on_click]
    cases hs : (check_node_clicked c.network (x, y) true).1 <;> simp [hs, h2]
  · intro c x y n hn
    simp [on_click, hn]

/-- Witness for C10: a right press at `(0, 0)` on the sample canvas
leaves the network untouched. -/
theorem check_node_clicked_edgePossible_frame_witness :
    (check_node_clicked sampleGraphST (0, 0) true).2 = sampleGraphST ∧
    (∀ n, (check_node_clicked sampleGraphST (0, 0) true).1 = some n →
      ∃ p ∈ sampleGraphST.nodes, p.1 = n ∧
        sqDist (0, 0) p.2.position ≤ SIMILARITY_DIST ^ 2) ∧
    (∀ (c : Canvas) (x y : ℚ),
      (on_click c { xdata := some x, ydata := some y, button := .right }).network =
        c.network) ∧
    (∀ (c : Canvas) (x y : ℚ) (n : String),
      (check_node_clicked c.network (x, y) true).1 = some n →
      (on_click c { xdata := some x, ydata := some y, button := .right }).selectedNode =
          some n ∧
      (on_click c
          { xdata := some x, ydata := some y, button := .right }).mouseRightPressed = true) :=
  check_node_clicked_edgePossible_frame sampleGraphST (0, 0)

/-- The edge-hit predicate of `check_edge_clicked`:
`0 <= dist <= SIMILARITY_DIST` on the (squared-encoded) projection
distance of the clicked position to the edge's segment. -/
def edgeWithin (g : Graph) (clickpos : ℚ × ℚ) (e : (String × String) × EdgeAttrs) : Prop :=
  0 ≤ compute_dist_projection_on_segment clickpos (nodePosition g e.1.1) (nodePosition g e.1.2) ∧
  compute_dist_projection_on_segment clickpos (nodePosition g e.1.1) (nodePosition g e.1.2) ≤
    SIMILARITY_DIST ^ 2

instance edgeWithin.instDecidable (g : Graph) (clickpos : ℚ × ℚ)
    (e : (String × String) × EdgeAttrs) : Decidable (edgeWithin g clickpos e) := by
  unfold edgeWithin
  exact inferInstance

/-- The edge scan loop is first-match search over the edge list. -/
theorem edgeLoop_eq_find (g : Graph) (clickpos : ℚ × ℚ)
    (l : List ((String × String) × EdgeAttrs)) :
    edgeLoop g clickpos l =
      (l.find? (fun e => decide (edgeWithin g clickpos e))).map (fun e => e.1) := by
  induction l with
  | nil => rfl
  | cons e rest ih =>
    by_cases h : edgeWithin g clickpos e
    · rw [List.find?_cons_of_pos _ (by simpa using h)]
      simp only [edgeLoop]
      unfold edgeWithin at h
      rw [if_pos h]
      rfl
    · rw [List.find?_cons_of_neg _ (by simpa using h)]
      simp only [edgeLoop]
      unfold edgeWithin at h
      rw [if_neg h]
      exact ih

/-- Claim C6: `check_edge_clicked` returns `none` exactly when no edge
qualifies, and returns an edge id exactly when that id labels the first
qualifying edge in the graph's edge iteration order (several later edges
may qualify too); the test is a pure function of the graph. -/
theorem check_edge_clicked_spec (g : Graph) (clickpos : ℚ × ℚ) :
    (check_edge_clicked g clickpos = none ↔ ∀ e ∈ g.edges, ¬ edgeWithin g clickpos e) ∧
    ∀ eid, check_edge_clicked g clickpos = some eid ↔
      ∃ e l1 l2, g.edges = l1 ++ e :: l2 ∧ e.1 = eid ∧ edgeWithin g clickpos e ∧
        ∀ q ∈ l1, ¬ edgeWithin g clickpos q := by
  constructor
  · rw [check_edge_clicked, edgeLoop_eq_find]
    simp [List.find?_eq_none]
  · intro eid
    rw [check_edge_clicked, edgeLoop_eq_find]
    constructor
    · intro h
      obtain ⟨e, he, heid⟩ := Option.map_eq_some'.mp h
      obtain ⟨hpe, l1, l2, hsplit, hprev⟩ := List.find?_eq_some.mp he
      exact ⟨e, l1, l2, hsplit, heid, by simpa using hpe,
        fun q hq => by simpa using hprev q hq⟩
    · rintro ⟨e, l1, l2, hsplit, heid, he, hprev⟩
      have : g.edges.find? (fun e => decide (edgeWithin g clickpos e)) = some e := by
        rw [List.find?_eq_some]
        exact ⟨by simpa using he, l1, l2, hsplit, fun q hq => by simpa using hprev q hq⟩
      rw [this]
      simp [heid]

/-- Witness for C6 on the sample graph with one edge. -/
theorem check_edge_clicked_spec_witness :
    (check_edge_clicked sampleGraphAB (0, 0) = none ↔
      ∀ e ∈ sampleGraphAB.edges, ¬ edgeWithin sampleGraphAB (0, 0) e) ∧
    ∀ eid, check_edge_clicked sampleGraphAB (0, 0) = some eid ↔
      ∃ e l1 l2, sampleGraphAB.edges = l1 ++ e :: l2 ∧ e.1 = eid ∧
        edgeWithin sampleGraphAB (0, 0) e ∧
        ∀ q ∈ l1, ¬ edgeWithin sampleGraphAB (0, 0) q :=
  check_edge_clicked_spec sampleGraphAB (0, 0)

/-- Claim C2: releasing the primary button on an existing node `n` while
`selectedNode = sel ≠ n` and no edge `(sel, n)` exists adds exactly that
one edge with the default attributes (transit time 1, out-capacity 1,
in-capacity ∞, storage ∞; mode flags `resettingEnabled = False`,
`active = True` when `onlyNTF`, both `None` otherwise), focuses the new
edge and clears the node focus and the selection. -/
theorem on_release_creates_edge (c : Canvas) (x y : ℚ) (sel n : String)
    (hsel : c.selectedNode = some sel)
    (hscan : check_node_clicked c.network (x, y)
        (check_edge_clicked c.network (x, y)).isSome = (some n, c.network))
    (hne : sel ≠ n)
    (hnoedge : has_edge c.network sel n = false) :
    on_release c { xdata := some x, ydata := some y, button := .left } =
      { c with
        network := { c.network with
          edges := c.network.edges ++ [((sel, n), defaultEdgeAttrs c.type c.onlyNTF)] },
        focusEdge := some (sel, n),
        focusNode := none,
        selectedNode := none } ∧
    (defaultEdgeAttrs c.type c.onlyNTF).transitTime = .fin 1 ∧
    (defaultEdgeAttrs c.type c.onlyNTF).outCapacity = .fin 1 ∧
    (defaultEdgeAttrs c.type c.onlyNTF).inCapacity = .inf ∧
    (defaultEdgeAttrs c.type c.onlyNTF).storage = .inf ∧
    (defaultEdgeAttrs c.type c.onlyNTF).TFC.resettingEnabled =
      (if c.onlyNTF then some false else none) ∧
    (defaultEdgeAttrs c.type c.onlyNTF).TFC.active =
      (if c.onlyNTF then some true else none) := by
  constructor
  · simp only [on_release, hscan, hsel, lt_irrefl, if_false, add_edge, hnoedge,
      Bool.false_eq_true, hne, ne_eq, not_false_iff, if_true]
  · cases htype : c.type <;> simp [defaultEdgeAttrs]

/-- Witness for C2, the §8 end-to-end scenario: press at `(-50, 0)`
(selecting `s`), release at `(50, 0)` (on `t`); exactly the edge
`(s, t)` is created with the default attributes and focused. -/
theorem on_release_creates_edge_witness :
    on_release (on_click sampleCanvas { xdata := some (-50), ydata := some 0, button := .left })
        { xdata := some 50, ydata := some 0, button := .left } =
      { on_click sampleCanvas { xdata := some (-50), ydata := some 0, button := .left } with
        network := { (on_click sampleCanvas
            { xdata := some (-50), ydata := some 0, button := .left }).network with
          edges := (on_click sampleCanvas
              { xdata := some (-50), ydata := some 0, button := .left }).network.edges ++
            [(("s", "t"),
              defaultEdgeAttrs
                (on_click sampleCanvas
                  { xdata := some (-50), ydata := some 0, button := .left }).type
                (on_click sampleCanvas
                  { xdata := some (-50), ydata := some 0, button := .left }).onlyNTF)] },
        focusEdge := some ("s", "t"),
        focusNode := none,
        selectedNode := none } ∧
    (defaultEdgeAttrs
        (on_click sampleCanvas { xdata := some (-50), ydata := some 0, button := .left }).type
        (on_click sampleCanvas
          { xdata := some (-50), ydata := some 0, button := .left }).onlyNTF).transitTime =
      .fin 1 ∧
    (defaultEdgeAttrs
        (on_click sampleCanvas { xdata := some (-50), ydata := some 0, button := .left }).type
        (on_click sampleCanvas
          { xdata := some (-50), ydata := some 0, button := .left }).onlyNTF).outCapacity =
      .fin 1 ∧
    (defaultEdgeAttrs
        (on_click sampleCanvas { xdata := some (-50), ydata := some 0, button := .left }).type
        (on_click sampleCanvas
          { xdata := some (-50), ydata := some 0, button := .left }).onlyNTF).inCapacity =
      .inf ∧
    (defaultEdgeAttrs
        (on_click sampleCanvas { xdata := some (-50), ydata := some 0, button := .left }).type
        (on_click sampleCanvas
          { xdata := some (-50), ydata := some 0, button := .left }).onlyNTF).storage =
      .inf ∧
    (defaultEdgeAttrs
        (on_click sampleCanvas { xdata := some (-50), ydata := some 0, button := .left }).type
        (on_click sampleCanvas
          { xdata := some (-50), ydata := some 0,
            button := .left }).onlyNTF).TFC.resettingEnabled =
      (if (on_click sampleCanvas
          { xdata := some (-50), ydata := some 0, button := .left }).onlyNTF then some false
       else none) ∧
    (defaultEdgeAttrs
        (on_click sampleCanvas { xdata := some (-50), ydata := some 0, button := .left }).type
        (on_click sampleCanvas
          { xdata := some (-50), ydata := some 0, button := .left }).onlyNTF).TFC.active =
      (if (on_click sampleCanvas
          { xdata := some (-50), ydata := some 0, button := .left }).onlyNTF then some true
       else none) :=
  on_release_creates_edge
    (on_click sampleCanvas { xdata := some (-50), ydata := some 0, button := .left })
    50 0 "s" "t"
    (by with_unfolding_all decide)
    (by with_unfolding_all decide)
    (by decide)
    (by with_unfolding_all decide)

/-- Claim C3: re-creating an existing edge `A → B` by a primary release
is a silent no-op on the graph, while creating the reverse edge `B → A`
when only `A → B` exists appends it, so both ordered pairs are then
present. -/
theorem on_release_edge_idempotent :
    (∀ (c : Canvas) (x y : ℚ) (A B : String),
      c.selectedNode = some A →
      check_node_clicked c.network (x, y)
          (check_edge_clicked c.network (x, y)).isSome = (some B, c.network) →
      A ≠ B →
      has_edge c.network A B = true →
      (on_release c { xdata := some x, ydata := some y, button := .left }).network =
        c.network) ∧
    (∀ (c : Canvas) (x y : ℚ) (A B : String),
      c.selectedNode = some B →
      check_node_clicked c.network (x, y)
          (check_edge_clicked c.network (x, y)).isSome = (some A, c.network) →
      B ≠ A →
      has_edge c.network A B = true →
      has_edge c.network B A = false →
      (on_release c { xdata := some x, ydata := some y, button := .left }).network.edges =
        c.network.edges ++ [((B, A), defaultEdgeAttrs c.type c.onlyNTF)] ∧
      has_edge (on_release c
          { xdata := some x, ydata := some y, button := .left }).network A B = true ∧
      has_edge (on_release c
          { xdata := some x, ydata := some y, button := .left }).network B A = true) := by
  constructor
  · intro c x y A B hsel hscan hne hAB
    simp only [on_release, hscan, hsel, lt_irrefl, if_false, hAB, ne_eq, hne,
      not_false_iff, if_true, not_true, Bool.true_eq_false]
  · intro c x y A B hsel hscan hne hAB hBA
    have hmain : (on_release c
        { xdata := some x, ydata := some y, button := .left }).network.edges =
        c.network.edges ++ [((B, A), defaultEdgeAttrs c.type c.onlyNTF)] := by
      simp only [on_release, hscan, hsel, lt_irrefl, if_false, add_edge, hBA,
        Bool.false_eq_true, ne_eq, hne, not_false_iff, if_true]
    refine ⟨hmain, ?_, ?_⟩
    · simp only [has_edge, hmain, List.any_append, Bool.or_eq_true]
      left
      exact hAB
    · simp [has_edge, hmain, List.any_append]

/-- Witness for C3: on the graph with the single edge `A → B`, releasing
on `B` with `A` selected changes nothing, and releasing on `A` with `B`
selected appends the reverse edge. -/
theorem on_release_edge_idempotent_witness :
    ((on_release (sampleCanvasAB (some "A"))
        { xdata := some 50, ydata := some 0, button := .left }).network =
      (sampleCanvasAB (some "A")).network) ∧
    ((on_release (sampleCanvasAB (some "B"))
        { xdata := some (-50), ydata := some 0, button := .left }).network.edges =
      (sampleCanvasAB (some "B")).network.edges ++
        [(("B", "A"), defaultEdgeAttrs (sampleCanvasAB (some "B")).type
            (sampleCanvasAB (some "B")).onlyNTF)] ∧
      has_edge (on_release (sampleCanvasAB (some "B"))
          { xdata := some (-50), ydata := some 0, button := .left }).network "A" "B" = true ∧
      has_edge (on_release (sampleCanvasAB (some "B"))
          { xdata := some (-50), ydata := some 0, button := .left }).network "B" "A" = true) :=
  ⟨on_release_edge_idempotent.1 (sampleCanvasAB (some "A")) 50 0 "A" "B"
      (by with_unfolding_all decide) (by with_unfolding_all decide) (by decide)
      (by with_unfolding_all decide),
   on_release_edge_idempotent.2 (sampleCanvasAB (some "B")) (-50) 0 "A" "B"
      (by with_unfolding_all decide) (by with_unfolding_all decide) (by decide)
      (by with_unfolding_all decide) (by with_unfolding_all decide)⟩

/-- The focus invariant: at most one of `focusNode`, `focusEdge` is set. -/
def focusInv (c : Canvas) : Prop :=
  c.focusNode = none ∨ c.focusEdge = none

/-- `on_click` preserves the focus invariant. -/
theorem focusInv_on_click (c : Canvas) (event : MouseEvent) (h : focusInv c) :
    focusInv (on_click c event) := by
  rcases event with ⟨xd, yd, b⟩
  cases xd with
  | none => simpa [on_click] using h
  | some x =>
    cases yd with
    | none => simpa [on_click] using h
    | some y =>
      cases b with
      | wheel => simpa [on_click, focusInv] using h
      | right =>
        cases hcn : (check_node_clicked c.network (x, y) true).1 with
        | none => simpa [on_click, hcn, focusInv] using h
        | some n => simp [on_click, hcn, focusInv]
      | left =>
        simp only [on_click]
        cases hcn : (check_node_clicked c.network (x, y)
            (check_edge_clicked c.network (x, y)).isSome).1 with
        | some n =>
          simp [focusInv]
        | none =>
          cases hce : (check_edge_clicked c.network (x, y)).isSome with
          | true => simp [hce, focusInv]
          | false => simpa [hce, focusInv] using h

/-- `on_release` preserves the focus invariant. -/
theorem focusInv_on_release (c : Canvas) (event : MouseEvent) (h : focusInv c) :
    focusInv (on_release c event) := by
  rcases event with ⟨xd, yd, b⟩
  cases xd with
  | none => simpa [on_release] using h
  | some x =>
    cases yd with
    | none => simpa [on_release] using h
    | some y =>
      cases b with
      | wheel => simpa [on_release, focusInv] using h
      | right => simpa [on_release, focusInv] using h
      | left =>
        simp only [on_release]
        cases hcn : (check_node_clicked c.network (x, y)
            (check_edge_clicked c.network (x, y)).isSome).1 with
        | none => simpa [focusInv] using h
        | some n =>
          cases hsel : c.selectedNode with
          | none =>
            by_cases hnew : c.network.lastID < (check_node_clicked c.network (x, y)
                (check_edge_clicked c.network (x, y)).isSome).2.lastID
            · simp [hsel, hnew, focusInv]
            · simpa [hsel, hnew, focusInv] using h
          | some sel =>
            by_cases hne2 : sel = n
            · by_cases hnew : c.network.lastID < (check_node_clicked c.network (x, y)
                  (check_edge_clicked c.network (x, y)).isSome).2.lastID
              · simp [hsel, hne2, hnew, focusInv]
              · simpa [hsel, hne2, hnew, focusInv] using h
            · by_cases hedge : has_edge (check_node_clicked c.network (x, y)
                  (check_edge_clicked c.network (x, y)).isSome).2 sel n = true
              · by_cases hnew : c.network.lastID < (check_node_clicked c.network (x, y)
                    (check_edge_clicked c.network (x, y)).isSome).2.lastID
                · simp [hsel, hne2, hedge, hnew, focusInv]
                · simpa [hsel, hne2, hedge, hnew, focusInv] using h
              · by_cases hnew : c.network.lastID < (check_node_clicked c.network (x, y)
                    (check_edge_clicked c.network (x, y)).isSome).2.lastID
                · simp [hsel, hne2, hedge, hnew, focusInv]
                · simp [hsel, hne2, hedge, hnew, focusInv]

/-- `on_motion` preserves the focus invariant (it never touches focus). -/
theorem focusInv_on_motion (c : Canvas) (event : MouseEvent) (h : focusInv c) :
    focusInv (on_motion c event) := by
  rcases event with ⟨xd, yd, b⟩
  cases xd with
  | none => simpa [on_motion] using h
  | some x =>
    cases yd with
    | none => simpa [on_motion] using h
    | some y =>
      simp only [on_motion]
      by_cases h1 : (c.mouseWheelPressed && c.mouseWheelPressedPosition.isSome) = true
      · rw [if_pos h1]
        unfold move
        cases hq : c.mouseWheelPressedPosition with
        | none => simpa [focusInv] using h
        | some q => simpa [focusInv] using h
      · rw [if_neg h1]
        cases hsel : c.selectedNode with
        | none => simpa [focusInv] using h
        | some v =>
          cases hrp : c.mouseRightPressed with
          | true => simpa [focusInv] using h
          | false => simpa [focusInv] using h

/-- `on_scroll` preserves the focus invariant (zoom never touches focus). -/
theorem focusInv_on_scroll (c : Canvas) (event : ScrollEvent) (h : focusInv c) :
    focusInv (on_scroll c event) := by
  rcases event with ⟨xd, yd, b⟩
  cases xd with
  | none => simpa [on_scroll] using h
  | some x =>
    cases yd with
    | none => simpa [on_scroll] using h
    | some y => simpa [on_scroll, zoom, focusInv] using h

/-- Claim C9: starting from a state where at most one of `focusNode`,
`focusEdge` is set, every complete run of each event handler leaves at
most one of them set. -/
theorem focus_mutual_exclusion (c : Canvas) (h : focusInv c)
    (event : MouseEvent) (scrollEvent : ScrollEvent) :
    focusInv (on_click c event) ∧ focusInv (on_release c event) ∧
    focusInv (on_motion c event) ∧ focusInv (on_scroll c scrollEvent) :=
  ⟨focusInv_on_click c event h, focusInv_on_release c event h,
   focusInv_on_motion c event h, focusInv_on_scroll c scrollEvent h⟩

/-- Witness for C9 on the sample canvas with a left press. -/
theorem focus_mutual_exclusion_witness :
    focusInv (on_click sampleCanvas
      { xdata := some (-50), ydata := some 0, button := .left }) ∧
    focusInv (on_release sampleCanvas
      { xdata := some (-50), ydata := some 0, button := .left }) ∧
    focusInv (on_motion sampleCanvas
      { xdata := some (-50), ydata := some 0, button := .left }) ∧
    focusInv (on_scroll sampleCanvas
      { xdata := some (-50), ydata := some 0, button := .up }) :=
  focus_mutual_exclusion sampleCanvas (Or.inl rfl)
    { xdata := some (-50), ydata := some 0, button := .left }
    { xdata := some (-50), ydata := some 0, button := .up }

end NashFlow
